import Mathlib

/-!
Verification of the spotichart playlist reconciliation workflow.

This file gives a shallow embedding, in Lean, of the parts of the
spotichart code base that the specification talks about:

* `src/spotichart/application/validators.py` (request validation),
* `src/spotichart/application/handlers.py` (`CreatePlaylistHandler`:
  scrape / validate / create-or-update pipeline and `_add_tracks`),
* `src/spotichart/core/strategies.py` (`ReplaceStrategy`, `AppendStrategy`),
* `src/spotichart/core/playlist_manager.py` (`PlaylistManager.find_by_name`),
* `src/spotichart/core/playlist_cache.py` (`PlaylistCache`).

Remote I/O (the Spotify web API) is modelled by explicit state passing:
the remote playlist is a list of track URIs, remote write calls are
recorded in a trace, and fallible batch writes take a failure oracle
`fails : Nat → Bool` giving, per batch index, whether the remote call
raises.  Python strings are Lean `String`s; `str.strip()` and
`str.lower()` are re-implemented on the character list so that they
evaluate inside the kernel.
-/

namespace Spotichart

/-- Characters removed by Python `str.strip()` at both ends. -/
def stripChars (l : List Char) : List Char :=
  ((l.dropWhile Char.isWhitespace).reverse.dropWhile Char.isWhitespace).reverse

/-- Model of Python `str.strip()`. -/
def pyStrip (s : String) : String := String.mk (stripChars s.data)

/-- Model of Python `str.lower()`. -/
def pyLower (s : String) : String := String.mk (s.data.map Char.toLower)

/-- Model of the Python idiom `name.lower().strip()` used as the cache key
and for case-insensitive name comparison. -/
def pyNorm (s : String) : String := pyStrip (pyLower s)

theorem pyStrip_length_eq_zero (s : String) :
    (pyStrip s).length = 0 ↔ pyStrip s = "" := by
  constructor
  · intro h
    cases hs : pyStrip s with
    | mk d =>
      rw [hs] at h
      simp [String.length] at h
      simp [h]
  · intro h
    simp [h]

/-- Batch slicing: the Python loop
`for i in range(0, len(l), n): batch = l[i : i + n]` produces exactly the
chunks returned here (the `n = 0` case never occurs in the source, whose
batch sizes are 100 and 50). -/
def chunksOf (n : Nat) : List α → List (List α)
  | [] => []
  | x :: xs =>
    if n = 0 then [x :: xs]
    else ((x :: xs).take n) :: chunksOf n ((x :: xs).drop n)
termination_by l => l.length
decreasing_by
  simp only [List.length_drop]
  rename_i h
  simp only [List.length_cons]
  omega

theorem chunksOf_nil (n : Nat) : chunksOf n ([] : List α) = [] := by
  rw [chunksOf]

theorem chunksOf_of_ne (n : Nat) (l : List α) (hl : l ≠ []) (hn : n ≠ 0) :
    chunksOf n l = l.take n :: chunksOf n (l.drop n) := by
  cases l with
  | nil => exact absurd rfl hl
  | cons x xs => rw [chunksOf]; simp [hn]

/-- Concatenating the batches gives back the original list: batching is a
consecutive, order-preserving partition. -/
theorem flatten_chunksOf (n : Nat) (l : List α) : (chunksOf n l).flatten = l := by
  induction l using chunksOf.induct n with
  | case1 => rw [chunksOf_nil]; rfl
  | case2 x xs h =>
    rw [chunksOf]
    simp [h]
  | case3 x xs h ih =>
    rw [chunksOf_of_ne n (x :: xs) (by simp) h]
    simp only [List.flatten_cons, ih]
    exact List.take_append_drop n (x :: xs)

/-- Every batch is nonempty and carries at most `n` elements. -/
theorem mem_chunksOf_length_le (n : Nat) (hn : n ≠ 0) (l : List α) (c : List α)
    (hc : c ∈ chunksOf n l) : c.length ≤ n ∧ c ≠ [] := by
  induction l using chunksOf.induct n with
  | case1 => rw [chunksOf_nil] at hc; cases hc
  | case2 x xs h => exact absurd h hn
  | case3 x xs h ih =>
    rw [chunksOf_of_ne n (x :: xs) (by simp) h] at hc
    rcases List.mem_cons.mp hc with hc | hc
    · subst hc
      refine ⟨List.length_take_le n (x :: xs), ?_⟩
      simp [List.take_eq_nil_iff, h]
    · exact ih hc

/-- Batch sizes: `len l / n` full batches of size `n` followed by one final
batch of size `len l % n` when that remainder is nonzero. -/
theorem map_length_chunksOf (n : Nat) (hn : n ≠ 0) (l : List α) :
    (chunksOf n l).map List.length =
      List.replicate (l.length / n) n ++
        (if l.length % n = 0 then [] else [l.length % n]) := by
  induction l using chunksOf.induct n with
  | case1 => simp [chunksOf_nil]
  | case2 x xs h => exact absurd h hn
  | case3 x xs h ih =>
    rw [chunksOf_of_ne n (x :: xs) (by simp) h, List.map_cons, ih,
      List.length_drop]
    have hm : (x :: xs).length ≠ 0 := by simp
    rcases Nat.lt_or_ge (x :: xs).length n with hlt | hge
    · have ht : ((x :: xs).take n).length = (x :: xs).length := by
        rw [List.length_take]
        omega
      have h0 : (x :: xs).length - n = 0 := by omega
      have h1 : (x :: xs).length / n = 0 := Nat.div_eq_of_lt hlt
      have h2 : (x :: xs).length % n = (x :: xs).length := Nat.mod_eq_of_lt hlt
      rw [ht, h0, h1, h2, Nat.zero_div, Nat.zero_mod]
      simp [hm]
    · have ht : ((x :: xs).take n).length = n := by
        rw [List.length_take]
        omega
      have hsub : (x :: xs).length = ((x :: xs).length - n) + n := by omega
      have hdiv : (x :: xs).length / n = ((x :: xs).length - n) / n + 1 := by
        conv =>
          lhs
          rw [hsub]
        rw [Nat.add_div_right _ (Nat.pos_of_ne_zero hn)]
      have hmod : (x :: xs).length % n = ((x :: xs).length - n) % n := by
        conv =>
          lhs
          rw [hsub]
        rw [Nat.add_mod_right]
      rw [ht, hdiv, hmod, List.replicate_succ]
      rfl

/-- A nonempty list of at most `n` elements forms a single batch. -/
theorem chunksOf_small (n : Nat) (l : List α) (hl : l ≠ []) (hn : n ≠ 0)
    (h : l.length ≤ n) : chunksOf n l = [l] := by
  rw [chunksOf_of_ne n l hl hn]
  rw [List.take_of_length_le h, List.drop_eq_nil_of_le h, chunksOf_nil]

/-- Scraped track (core/models.py `Track`); only the fields the handler
reads are kept.  Python truthiness of `t.id` is emptiness of the string. -/
structure Track where
  id : String
  name : String
  artist : String
deriving DecidableEq

/-- Remote playlist as the handler and locator see it: its id, its display
name and its external Spotify URL. -/
structure SPlaylist where
  id : String
  name : String
  url : String
deriving DecidableEq

/-- application/dtos.py `CreatePlaylistRequest`. -/
structure CreatePlaylistRequest where
  name : String
  track_ids : List String
  description : String
  public : Bool
  update_mode : String
  region : String
deriving DecidableEq

/-- application/commands.py `CreatePlaylistCommand`. -/
structure CreatePlaylistCommand where
  region : String
  limit : Nat
  name : String
  public : Bool
  update_mode : String
  description : String
deriving DecidableEq

/-- application/dtos.py `CreatePlaylistResponse` (fields the claims use). -/
structure CreatePlaylistResponse where
  playlist_url : String
  tracks_added : Nat
  tracks_failed : Nat
  was_updated : Bool
  errors : List String
deriving DecidableEq

/-- Remote write operations issued against the Spotify API, recorded as a
trace by the handler model. -/
inductive RemoteCall where
  | create (name description : String) (pub : Bool)
  | updateDetails (pid description : String)
  | clear (pid : String)
  | addItems (pid : String) (uris : List String)
deriving DecidableEq

/-- Name check of `PlaylistRequestValidator.validate` (validators.py,
lines 47-53): blank name, else over-long name. -/
def nameErrors (r : CreatePlaylistRequest) : List String :=
  if r.name = "" ∨ (pyStrip r.name).length = 0 then
    ["Playlist name is required"]
  else if r.name.length > 100 then
    ["Playlist name too long (max 100 characters)"]
  else []

/-- Update-mode check of `PlaylistRequestValidator.validate` (lines 55-57). -/
def modeErrors (r : CreatePlaylistRequest) : List String :=
  if r.update_mode ∉ ["replace", "append", "new"] then
    ["Invalid update mode: " ++ r.update_mode]
  else []

/-- Track-count check of `PlaylistRequestValidator.validate` (lines 59-63). -/
def countErrors (r : CreatePlaylistRequest) : List String :=
  if r.track_ids.length < 1 then
    ["At least 1 track is required"]
  else if r.track_ids.length > 10000 then
    ["Too many tracks (max 10000)"]
  else []

/-- Blank-track-id check of `PlaylistRequestValidator.validate`
(lines 65-69); the Python loop breaks after the first offending id, so at
most one error is produced. -/
def trackIdErrors (r : CreatePlaylistRequest) : List String :=
  if r.track_ids.any (fun t => decide (t = "" ∨ (pyStrip t).length = 0)) then
    ["Track IDs cannot be empty"]
  else []

/-- `PlaylistRequestValidator.validate`: the four checks run in sequence,
each appending its errors; the request is accepted exactly when no check
fired. -/
def validate (r : CreatePlaylistRequest) :
    Except (List String) CreatePlaylistRequest :=
  if nameErrors r ++ modeErrors r ++ countErrors r ++ trackIdErrors r = []
  then Except.ok r
  else Except.error
    (nameErrors r ++ modeErrors r ++ countErrors r ++ trackIdErrors r)

/-- `TrackManager.build_uri` / handlers.py: `"spotify:track:" + track_id`. -/
def buildUri (track_id : String) : String := "spotify:track:" ++ track_id

/-- Error message recorded per failed batch in `_add_tracks`
(handlers.py line 302); the exception text appended by the source is
abstracted away, the batch number (chunk index + 1) is kept. -/
def addBatchErrMsg (chunkIdx : Nat) : String :=
  "Failed to add batch " ++ toString (chunkIdx + 1)

/-- Batch loop of `CreatePlaylistHandler._add_tracks` (handlers.py lines
296-304): every batch is attempted in order; a failing batch contributes
an error message instead of its count, and the loop continues.  Returns
(added count, error messages, issued remote calls). -/
def runAddBatches (pid : String) (fails : Nat → Bool) :
    Nat → List (List String) → Nat × List String × List RemoteCall
  | _, [] => (0, [], [])
  | i, b :: bs =>
    let rest := runAddBatches pid fails (i + 1) bs
    if fails i then
      (rest.1, addBatchErrMsg i :: rest.2.1,
        RemoteCall.addItems pid b :: rest.2.2)
    else
      (b.length + rest.1, rest.2.1, RemoteCall.addItems pid b :: rest.2.2)

/-- Result of `CreatePlaylistHandler._add_tracks`. -/
structure AddOutcome where
  added : Nat
  failed : Nat
  errors : List String
  calls : List RemoteCall
deriving DecidableEq

/-- `CreatePlaylistHandler._add_tracks` (handlers.py lines 277-312):
convert ids to URIs, add in batches of 100, tolerate per-batch failure,
report `tracks_failed = total - added`. -/
def addTracksHandler (pid : String) (track_ids : List String)
    (fails : Nat → Bool) : AddOutcome :=
  if track_ids = [] then ⟨0, 0, [], []⟩
  else
    let uris := track_ids.map buildUri
    let r := runAddBatches pid fails 0 (chunksOf 100 uris)
    ⟨r.1, uris.length - r.1, r.2.1, r.2.2⟩

/-- Result of a strategy-level update (strategies.py): the reported added
count, the remove-tracks calls issued, the add-tracks calls issued, and
the playlist contents after applying the successful remote writes. -/
structure StrategyOutcome where
  added : Nat
  removeCalls : List (List String)
  addCalls : List (List String)
  final : List String
deriving DecidableEq

/-- Batch-add loop shared by `ReplaceStrategy._add_tracks_in_batches` and
`AppendStrategy.update` (strategies.py lines 85-94 and 137-144): every
batch of 100 is attempted; on success its length is counted and its URIs
land on the playlist, on failure the loop just continues.  Returns
(added count, attempted calls, URIs actually appended). -/
def runStrategyBatches (fails : Nat → Bool) :
    Nat → List (List String) → Nat × List (List String) × List String
  | _, [] => (0, [], [])
  | i, b :: bs =>
    let rest := runStrategyBatches fails (i + 1) bs
    if fails i then (rest.1, b :: rest.2.1, rest.2.2)
    else (b.length + rest.1, b :: rest.2.1, b ++ rest.2.2)

/-- `AppendStrategy.update` (strategies.py lines 100-146).  The paginated
read of the playlist's current tracks is modelled by the playlist's URI
list itself; `new_tracks` keeps, in order, the desired URIs not already
present; if none are new, no remote write happens and 0 is reported. -/
def appendStrategyUpdate (playlist desired : List String)
    (fails : Nat → Bool) : StrategyOutcome :=
  let new_tracks := desired.filter (fun u => u ∉ playlist)
  if new_tracks = [] then ⟨0, [], [], playlist⟩
  else
    let r := runStrategyBatches fails 0 (chunksOf 100 new_tracks)
    ⟨r.1, [], r.2.1, playlist ++ r.2.2⟩

/-- Sequential effect of the remove-tracks calls: each call removes all
occurrences of its URIs (`playlist_remove_all_occurrences_of_items`). -/
def removeBatches (playlist : List String) (batches : List (List String)) :
    List String :=
  batches.foldl (fun p c => p.filter (fun u => u ∉ c)) playlist

/-- `ReplaceStrategy.update` (strategies.py lines 47-76): read all current
tracks, remove them in batches of 100, then add the desired URIs in
batches of 100. -/
def replaceStrategyUpdate (playlist desired : List String)
    (fails : Nat → Bool) : StrategyOutcome :=
  let current := playlist
  let removeCalls := chunksOf 100 current
  let cleared := removeBatches playlist removeCalls
  let r := runStrategyBatches fails 0 (chunksOf 100 desired)
  ⟨r.1, removeCalls, r.2.1, cleared ++ r.2.2⟩

/-- Environment a `CreatePlaylistHandler.handle` run interacts with: the
chart provider's result, what `find_by_name` would return (transport
errors inside `find_by_name` are swallowed there and surface as `none`),
the playlist a create call returns, and the per-batch failure oracle of
the add-tracks calls. -/
structure Env where
  scrape : Except String (List Track)
  existing : Option SPlaylist
  created : SPlaylist
  addFails : Nat → Bool

/-- Errors a `handle` run can report (utils/result.py `Failure` payloads
relevant here): a `ChartScrapingError` or the validation error list. -/
inductive HandlerError where
  | chartScraping (msg : String)
  | validation (errs : List String)
deriving DecidableEq

/-- Branch selection of `_create_or_update_playlist` (handlers.py lines
155-159): `existing = None` is forced when mode is "new", so the found
playlist is discarded. -/
def chosenExisting (mode : String) (existing : Option SPlaylist) :
    Option SPlaylist :=
  match existing with
  | some p => if mode = "new" then none else some p
  | none => none

/-- Branches of the update-mode dispatch in `_update_existing_playlist`
(handlers.py lines 229-245): `replace`, `append`, and the fallback `sync`
else-branch. -/
inductive UpdateBranch where
  | replace
  | append
  | sync
deriving DecidableEq

/-- Update-mode dispatch of `_update_existing_playlist`: `if ... elif ...
else` on the request's update mode. -/
def updateBranch (mode : String) : UpdateBranch :=
  if mode = "replace" then UpdateBranch.replace
  else if mode = "append" then UpdateBranch.append
  else UpdateBranch.sync

/-- Request built by `handle` step 2 (handlers.py lines 119-128): ids of
scraped tracks with non-empty id, and the command's fields carried over. -/
def reqOf (cmd : CreatePlaylistCommand) (tracks : List Track) :
    CreatePlaylistRequest :=
  ⟨cmd.name, (tracks.filter (fun t => t.id ≠ "")).map (fun t => t.id),
    cmd.description, cmd.public, cmd.update_mode, cmd.region⟩

/-- `CreatePlaylistHandler._update_existing_playlist` (handlers.py lines
217-275): update the description, then dispatch on the update mode; the
`replace` and fallback branches also clear the playlist first.  Note that
the `append` branch calls `_add_tracks` on all track ids, without reading
the playlist's current contents. -/
def updateExisting (p : SPlaylist) (req : CreatePlaylistRequest)
    (fails : Nat → Bool) : CreatePlaylistResponse × List RemoteCall :=
  let o := addTracksHandler p.id req.track_ids fails
  let resp : CreatePlaylistResponse :=
    ⟨p.url, o.added, o.failed, true, o.errors⟩
  match updateBranch req.update_mode with
  | UpdateBranch.replace =>
    (resp, RemoteCall.updateDetails p.id req.description ::
      RemoteCall.clear p.id :: o.calls)
  | UpdateBranch.append =>
    (resp, RemoteCall.updateDetails p.id req.description :: o.calls)
  | UpdateBranch.sync =>
    (resp, RemoteCall.updateDetails p.id req.description ::
      RemoteCall.clear p.id :: o.calls)

/-- `CreatePlaylistHandler._create_new_playlist` (handlers.py lines
170-215): create the playlist, then add the tracks in batches. -/
def createNew (env : Env) (req : CreatePlaylistRequest) :
    CreatePlaylistResponse × List RemoteCall :=
  let p := env.created
  let o := addTracksHandler p.id req.track_ids env.addFails
  (⟨p.url, o.added, o.failed, false, o.errors⟩,
    RemoteCall.create req.name req.description req.public :: o.calls)

/-- `CreatePlaylistHandler._create_or_update_playlist` (handlers.py lines
149-168). -/
def createOrUpdate (env : Env) (req : CreatePlaylistRequest) :
    CreatePlaylistResponse × List RemoteCall :=
  match chosenExisting req.update_mode env.existing with
  | some p => updateExisting p req env.addFails
  | none => createNew env req

/-- `CreatePlaylistHandler.handle` (handlers.py lines 76-147): scrape,
fail on scrape error or on an empty track list, build and validate the
request, then create or update.  The second component is the trace of
remote playlist-write calls issued by the run. -/
def handle (cmd : CreatePlaylistCommand) (env : Env) :
    Except HandlerError CreatePlaylistResponse × List RemoteCall :=
  match env.scrape with
  | Except.error e => (Except.error (HandlerError.chartScraping e), [])
  | Except.ok tracks =>
    if tracks = [] then
      (Except.error (HandlerError.chartScraping
        ("No tracks found for region: " ++ cmd.region)), [])
    else
      let req := reqOf cmd tracks
      match validate req with
      | Except.error errs => (Except.error (HandlerError.validation errs), [])
      | Except.ok _ =>
        let rc := createOrUpdate env req
        (Except.ok rc.1, rc.2)

/-- In-memory cache map of `PlaylistCache` (`self._cache`): association
list keyed by the normalized playlist name.  A Python dict is modelled so
that insertion replaces any earlier binding of the same key. -/
abbrev CacheMap := List (String × SPlaylist)

/-- `PlaylistCache` cache key: `name.lower().strip()`. -/
def cacheKey (name : String) : String := pyNorm name

/-- `PlaylistCache.get` (playlist_cache.py lines 78-96): lookup under the
normalized key; no TTL check happens here (expiry is applied only when
loading the cache file). -/
def cacheGet (m : CacheMap) (name : String) : Option SPlaylist :=
  List.lookup (cacheKey name) m

/-- `PlaylistCache.set` (lines 98-108): bind the normalized key to the
playlist, replacing any previous binding. -/
def cacheSet (m : CacheMap) (name : String) (p : SPlaylist) : CacheMap :=
  (cacheKey name, p) :: m.filter (fun e => e.1 ≠ cacheKey name)

/-- `PlaylistCache.remove` (lines 114-128): drop the normalized key. -/
def cacheRemove (m : CacheMap) (name : String) : CacheMap :=
  m.filter (fun e => e.1 ≠ cacheKey name)

/-- Remote side of `PlaylistManager.find_by_name`: the user's playlists in
order, plus the index of the `current_user_playlists` call (if any) at
which the client raises a transport error. -/
structure SpotifyClient where
  playlists : List SPlaylist
  errAt : Option Nat

/-- Paging loop of `PlaylistManager.find_by_name` (playlist_manager.py
lines 105-131): fetch pages of 50 starting at `offset`, compare normalized
names, stop at the first match or when no `next` page remains.  Returns
the loop's outcome (`Except.error` when the client raised) and the number
of `current_user_playlists` calls made. -/
def findLoop (key : String) (c : SpotifyClient) (offset callIdx : Nat) :
    Except Unit (Option SPlaylist) × Nat :=
  if c.errAt = some callIdx then (Except.error (), 1)
  else
    let items := (c.playlists.drop offset).take 50
    match items.find? (fun p => pyNorm p.name = key) with
    | some p => (Except.ok (some p), 1)
    | none =>
      if offset + 50 < c.playlists.length then
        let r := findLoop key c (offset + 50) (callIdx + 1)
        (r.1, r.2 + 1)
      else (Except.ok none, 1)
termination_by c.playlists.length - offset
decreasing_by
  rename_i h
  omega

/-- `PlaylistManager.find_by_name` (lines 86-135): consult the cache
first; on a miss, page through the remote playlists, caching the first
match; any exception in the paging loop is caught and reported as `None`.
Returns (result, cache afterwards, remote `current_user_playlists` call
count). -/
def findByName (cache : CacheMap) (c : SpotifyClient) (name : String) :
    Option SPlaylist × CacheMap × Nat :=
  match cacheGet cache name with
  | some p => (some p, cache, 0)
  | none =>
    let r := findLoop (pyNorm name) c 0 0
    match r.1 with
    | Except.error _ => (none, cache, r.2)
    | Except.ok none => (none, cache, r.2)
    | Except.ok (some p) => (some p, cacheSet cache name p, r.2)

/-- Number of "list my playlists" operations a lookup performed: 0 on a
cache hit, 1 otherwise (its pagination is a single logical listing, the
reading the spec gives the phrase "list playlists call"). -/
def listSessions (remoteCalls : Nat) : Nat :=
  if remoteCalls = 0 then 0 else 1

/-- Persisted cache-file shape (playlist_cache.py `_save_to_file`): one
entry per cached name carrying the playlist and its `cached_at` stamp;
time is modelled by a natural number. -/
abbrev CacheFile := List (String × SPlaylist × Nat)

/-- `PlaylistCache._save_to_file` (lines 56-76): the whole in-memory map
is rewritten, stamping every entry with the current time `now`. -/
def saveToFile (m : CacheMap) (now : Nat) : CacheFile :=
  m.map (fun e => (e.1, e.2, now))

/-- `PlaylistCache._load_from_file` (lines 34-54): keep exactly the
entries younger than the TTL at load time. -/
def loadFromFile (f : CacheFile) (now ttl : Nat) : CacheMap :=
  (f.filter (fun e => now - e.2.2 < ttl)).map (fun e => (e.1, e.2.1))

/-- `PlaylistCache.set` with a configured cache file: update the map and
rewrite the whole file at time `now`. -/
def setAndSave (m : CacheMap) (name : String) (p : SPlaylist) (now : Nat) :
    CacheMap × CacheFile :=
  let m2 := cacheSet m name p
  (m2, saveToFile m2 now)

/-- `PlaylistCache.remove` with a configured cache file: when the key is
present, delete it and rewrite the whole file at time `now`; otherwise
both the map and the file are left alone. -/
def removeAndSave (m : CacheMap) (name : String) (now : Nat)
    (file : CacheFile) : CacheMap × CacheFile :=
  if (cacheGet m name).isSome then
    let m2 := cacheRemove m name
    (m2, saveToFile m2 now)
  else (m, file)

theorem pyStrip_empty : pyStrip "" = "" := rfl

theorem nameErrors_eq_nil_iff (r : CreatePlaylistRequest) :
    nameErrors r = [] ↔ (pyStrip r.name ≠ "" ∧ r.name.length ≤ 100) := by
  unfold nameErrors
  split_ifs with h1 h2
  · rcases h1 with h1 | h1
    · simp [h1, pyStrip_empty]
    · simp [(pyStrip_length_eq_zero r.name).mp h1]
  · simp
    omega
  · push_neg at h1
    have hne : pyStrip r.name ≠ "" :=
      fun he => h1.2 ((pyStrip_length_eq_zero r.name).mpr he)
    simp [hne]
    omega

theorem modeErrors_eq_nil_iff (r : CreatePlaylistRequest) :
    modeErrors r = [] ↔ r.update_mode ∈ ["replace", "append", "new"] := by
  unfold modeErrors
  split_ifs with h
  · simp [h]
  · simp at h
    simp [h]

theorem countErrors_eq_nil_iff (r : CreatePlaylistRequest) :
    countErrors r = [] ↔
      (1 ≤ r.track_ids.length ∧ r.track_ids.length ≤ 10000) := by
  unfold countErrors
  split_ifs with h1 h2 <;> simp <;> omega

theorem trackIdErrors_eq_nil_iff (r : CreatePlaylistRequest) :
    trackIdErrors r = [] ↔ ∀ t ∈ r.track_ids, pyStrip t ≠ "" := by
  unfold trackIdErrors
  split_ifs with h
  · simp only [List.any_eq_true, decide_eq_true_eq] at h
    obtain ⟨t, ht, hblank⟩ := h
    simp
    refine ⟨t, ht, ?_⟩
    rcases hblank with hb | hb
    · rw [hb]; exact pyStrip_empty
    · exact (pyStrip_length_eq_zero t).mp hb
  · simp only [List.any_eq_true, decide_eq_true_eq] at h
    push_neg at h
    simp
    intro t ht
    exact fun he => (h t ht).2 ((pyStrip_length_eq_zero t).mpr he)

/-- C5: `PlaylistRequestValidator.validate` accepts exactly when the
trimmed name is non-empty, the name is at most 100 characters, the update
mode is one of replace / append / new, there are between 1 and 10000
track ids and none of them is blank; on rejection the error list is the
concatenation of the errors of all four independent checks (so every
failing check contributes, not just the first), and it is non-empty. -/
theorem validate_accepts_iff_and_collects_all_errors
    (r : CreatePlaylistRequest) :
    ((validate r).isOk = true ↔
      (pyStrip r.name ≠ "" ∧ r.name.length ≤ 100 ∧
        r.update_mode ∈ ["replace", "append", "new"] ∧
        1 ≤ r.track_ids.length ∧ r.track_ids.length ≤ 10000 ∧
        ∀ t ∈ r.track_ids, pyStrip t ≠ "")) ∧
    (∀ E, validate r = Except.error E →
      E ≠ [] ∧
      E = nameErrors r ++ modeErrors r ++ countErrors r ++ trackIdErrors r) ∧
    ((pyStrip r.name = "" ∨ 100 < r.name.length) → nameErrors r ≠ []) ∧
    (r.update_mode ∉ ["replace", "append", "new"] →
      ("Invalid update mode: " ++ r.update_mode) ∈ modeErrors r) ∧
    ((r.track_ids.length < 1 ∨ 10000 < r.track_ids.length) →
      countErrors r ≠ []) ∧
    ((∃ t ∈ r.track_ids, pyStrip t = "") →
      "Track IDs cannot be empty" ∈ trackIdErrors r) := by
  refine ⟨?_, ?_, ?_, ?_, ?_, ?_⟩
  · unfold validate
    split_ifs with h
    · simp only [Except.isOk, Except.toBool, true_iff]
      obtain ⟨h123, h4⟩ := List.append_eq_nil.mp h
      obtain ⟨h12, h3⟩ := List.append_eq_nil.mp h123
      obtain ⟨h1, h2⟩ := List.append_eq_nil.mp h12
      obtain ⟨hn1, hn2⟩ := (nameErrors_eq_nil_iff r).mp h1
      exact ⟨hn1, hn2, (modeErrors_eq_nil_iff r).mp h2,
        ((countErrors_eq_nil_iff r).mp h3).1,
        ((countErrors_eq_nil_iff r).mp h3).2,
        (trackIdErrors_eq_nil_iff r).mp h4⟩
    · simp only [Except.isOk, Except.toBool, Bool.false_eq_true, false_iff]
      intro ⟨hn1, hn2, hm, hc1, hc2, ht⟩
      exact h (by
        rw [(nameErrors_eq_nil_iff r).mpr ⟨hn1, hn2⟩,
          (modeErrors_eq_nil_iff r).mpr hm,
          (countErrors_eq_nil_iff r).mpr ⟨hc1, hc2⟩,
          (trackIdErrors_eq_nil_iff r).mpr ht]
        rfl)
  · intro E hE
    unfold validate at hE
    by_cases h : nameErrors r ++ modeErrors r ++ countErrors r ++
        trackIdErrors r = []
    · rw [if_pos h] at hE
      cases hE
    · rw [if_neg h] at hE
      cases hE
      exact ⟨h, rfl⟩
  · intro h hnil
    rw [nameErrors_eq_nil_iff] at hnil
    rcases h with h | h
    · exact hnil.1 h
    · omega
  · intro h
    unfold modeErrors
    rw [if_pos h]
    simp
  · intro h hnil
    rw [countErrors_eq_nil_iff] at hnil
    omega
  · intro ⟨t, ht, hblank⟩
    unfold trackIdErrors
    rw [if_pos]
    · simp
    · simp only [List.any_eq_true, decide_eq_true_eq]
      exact ⟨t, ht, Or.inr ((pyStrip_length_eq_zero t).mpr hblank)⟩

/-- Witness for C5: the request with a blank name, unknown mode and empty
track list is rejected with all three errors collected and a non-empty
error list, and a concrete well-formed request is accepted. -/
theorem validate_collects_all_errors_witness :
    validate ⟨"  ", [], "", false, "sync", ""⟩ =
      Except.error ["Playlist name is required", "Invalid update mode: sync",
        "At least 1 track is required"] ∧
    (["Playlist name is required", "Invalid update mode: sync",
        "At least 1 track is required"] : List String) ≠ [] ∧
    (validate ⟨"My Playlist", ["t1"], "", false, "append", ""⟩).isOk = true := by
  have hv : validate ⟨"  ", [], "", false, "sync", ""⟩ =
      Except.error ["Playlist name is required", "Invalid update mode: sync",
        "At least 1 track is required"] := by rfl
  refine ⟨hv, ?_, ?_⟩
  · exact ((validate_accepts_iff_and_collects_all_errors
      ⟨"  ", [], "", false, "sync", ""⟩).2.1 _ hv).1
  · exact ((validate_accepts_iff_and_collects_all_errors
      ⟨"My Playlist", ["t1"], "", false, "append", ""⟩).1).mpr
      (by refine ⟨by decide, by decide, by decide, by decide, by decide, ?_⟩
          intro t ht
          simp at ht
          subst ht
          decide)

theorem runStrategyBatches_noFail (i : Nat) (bs : List (List String)) :
    runStrategyBatches (fun _ => false) i bs =
      ((bs.map List.length).sum, bs, bs.flatten) := by
  induction bs generalizing i with
  | nil => rfl
  | cons b bs ih =>
    rw [runStrategyBatches, ih (i + 1)]
    simp

theorem removeBatches_cons (p c : List String) (cs : List (List String)) :
    removeBatches p (c :: cs) = removeBatches (p.filter (fun u => u ∉ c)) cs :=
  rfl

theorem removeBatches_eq_nil (p : List String) (cs : List (List String))
    (h : ∀ u ∈ p, ∃ c ∈ cs, u ∈ c) : removeBatches p cs = [] := by
  induction cs generalizing p with
  | nil =>
    have : p = [] := by
      rw [List.eq_nil_iff_forall_not_mem]
      intro u hu
      obtain ⟨c, hc, _⟩ := h u hu
      cases hc
    rw [this]
    rfl
  | cons c cs ih =>
    rw [removeBatches_cons]
    refine ih _ ?_
    intro u hu
    rw [List.mem_filter] at hu
    obtain ⟨hup, hnc⟩ := hu
    obtain ⟨c0, hc0, huc0⟩ := h u hup
    rcases List.mem_cons.mp hc0 with rfl | hc0
    · simp at hnc
      exact absurd huc0 hnc
    · exact ⟨c0, hc0, huc0⟩

theorem removeBatches_self_chunks (p : List String) :
    removeBatches p (chunksOf 100 p) = [] := by
  refine removeBatches_eq_nil p _ ?_
  intro u hu
  rw [← flatten_chunksOf 100 p] at hu
  exact List.mem_flatten.mp hu

/-- C2: one run of `ReplaceStrategy.update` (with all remote calls
succeeding) leaves the playlist holding exactly the desired URI list, in
its order and with its duplicates, whatever the starting state was; the
reported added count is the full desired length, and running replace a
second time with the same list against the resulting playlist produces
the same final track sequence. -/
theorem replace_exact_and_idempotent (playlist desired : List String) :
    (replaceStrategyUpdate playlist desired (fun _ => false)).final =
      desired ∧
    (replaceStrategyUpdate playlist desired (fun _ => false)).added =
      desired.length ∧
    (replaceStrategyUpdate
        ((replaceStrategyUpdate playlist desired (fun _ => false)).final)
        desired (fun _ => false)).final =
      (replaceStrategyUpdate playlist desired (fun _ => false)).final := by
  have key : ∀ q : List String,
      (replaceStrategyUpdate q desired (fun _ => false)).final = desired := by
    intro q
    unfold replaceStrategyUpdate
    rw [runStrategyBatches_noFail]
    simp only [removeBatches_self_chunks, flatten_chunksOf,
      List.nil_append]
  refine ⟨key playlist, ?_, ?_⟩
  · unfold replaceStrategyUpdate
    rw [runStrategyBatches_noFail]
    simp only
    rw [← List.length_flatten, flatten_chunksOf]
  · rw [key playlist, key desired]

theorem filter_not_mem_nil (desired : List String) :
    desired.filter (fun u => u ∉ ([] : List String)) = desired := by
  simp

/-- C1 (amended): `AppendStrategy.update` deduplicates against the
playlist's current contents: with all remote calls succeeding it adds
exactly the desired URIs not already present, in their original order,
reports that number as the added count, issues no remote write when
nothing is new, and never removes an existing track (the final state is
the old playlist followed by the new tracks). -/
theorem append_strategy_dedups (playlist desired : List String) :
    (appendStrategyUpdate playlist desired (fun _ => false)).added =
      (desired.filter (fun u => u ∉ playlist)).length ∧
    (appendStrategyUpdate playlist desired (fun _ => false)).addCalls.flatten
      = desired.filter (fun u => u ∉ playlist) ∧
    (desired.filter (fun u => u ∉ playlist) = [] →
      (appendStrategyUpdate playlist desired (fun _ => false)).addCalls = []
        ∧ (appendStrategyUpdate playlist desired (fun _ => false)).final =
          playlist) ∧
    (appendStrategyUpdate playlist desired (fun _ => false)).removeCalls
      = [] ∧
    (appendStrategyUpdate playlist desired (fun _ => false)).final =
      playlist ++ desired.filter (fun u => u ∉ playlist) := by
  unfold appendStrategyUpdate
  by_cases h : desired.filter (fun u => u ∉ playlist) = []
  · rw [if_pos h]
    refine ⟨?_, ?_, fun hc => ⟨rfl, rfl⟩, rfl, ?_⟩
    · rw [h]
      rfl
    · rw [h]
      rfl
    · rw [h, List.append_nil]
  · rw [if_neg h]
    rw [runStrategyBatches_noFail]
    refine ⟨?_, ?_, fun hc => absurd hc h, rfl, ?_⟩
    · simp only
      rw [← List.length_flatten, flatten_chunksOf]
    · simp only
      rw [flatten_chunksOf]
    · simp only
      rw [flatten_chunksOf]

/-- Witness for C1: with existing URIs A and B and desired list A, B, C,
the append strategy reports exactly one added track, issues exactly one
add call carrying only C, and ends with the playlist A, B, C. -/
theorem append_strategy_dedups_witness :
    (appendStrategyUpdate ["spotify:track:A", "spotify:track:B"]
        ["spotify:track:A", "spotify:track:B", "spotify:track:C"]
        (fun _ => false)).added = 1 ∧
    (appendStrategyUpdate ["spotify:track:A", "spotify:track:B"]
        ["spotify:track:A", "spotify:track:B", "spotify:track:C"]
        (fun _ => false)).addCalls.flatten = ["spotify:track:C"] ∧
    (appendStrategyUpdate ["spotify:track:A", "spotify:track:B"]
        ["spotify:track:A", "spotify:track:B", "spotify:track:C"]
        (fun _ => false)).final =
      ["spotify:track:A", "spotify:track:B", "spotify:track:C"] := by
  have h := append_strategy_dedups ["spotify:track:A", "spotify:track:B"]
    ["spotify:track:A", "spotify:track:B", "spotify:track:C"]
  have hf : (["spotify:track:A", "spotify:track:B", "spotify:track:C"] :
      List String).filter
        (fun u => u ∉ ["spotify:track:A", "spotify:track:B"]) =
      ["spotify:track:C"] := by decide
  refine ⟨?_, ?_, ?_⟩
  · rw [h.1, hf]
    rfl
  · rw [h.2.1, hf]
  · rw [h.2.2.2.2, hf]
    rfl

theorem addTracksHandler_small (pid : String) (ids : List String)
    (h1 : ids ≠ []) (h2 : ids.length ≤ 100) (fails : Nat → Bool) :
    addTracksHandler pid ids fails =
      if fails 0 then
        ⟨0, ids.length, [addBatchErrMsg 0],
          [RemoteCall.addItems pid (ids.map buildUri)]⟩
      else
        ⟨ids.length, 0, [], [RemoteCall.addItems pid (ids.map buildUri)]⟩ := by
  unfold addTracksHandler
  rw [if_neg h1]
  have hu1 : ids.map buildUri ≠ [] := by simp [h1]
  have hu2 : (ids.map buildUri).length ≤ 100 := by simp [h2]
  simp only []
  rw [chunksOf_small 100 _ hu1 (by decide) hu2]
  rw [runAddBatches, runAddBatches]
  by_cases hf : fails 0
  · rw [if_pos hf, if_pos hf]
    simp
  · rw [if_neg hf, if_neg hf]
    simp

/-- C1 counterexample: the `append` branch of
`CreatePlaylistHandler._update_existing_playlist` never reads the
playlist's current contents: against the existing playlist `pid` whose
tracks are `spotify:track:A` and `spotify:track:B`, the desired ids
A, B, C produce one add call carrying all three URIs — re-sending the
two already present — and a reported added count of 3, not the 1 the
claim requires for this input. -/
theorem handler_append_no_dedup_counterexample :
    updateExisting ⟨"pid", "Top 50", "purl"⟩
        ⟨"Top 50", ["A", "B", "C"], "", false, "append", "brazil"⟩
        (fun _ => false) =
      (⟨"purl", 3, 0, true, []⟩,
        [RemoteCall.updateDetails "pid" "",
         RemoteCall.addItems "pid"
           ["spotify:track:A", "spotify:track:B", "spotify:track:C"]]) ∧
    (3 : Nat) ≠ 1 := by
  refine ⟨?_, by decide⟩
  have haddt := addTracksHandler_small "pid" ["A", "B", "C"] (by decide)
    (by decide) (fun _ => false)
  rw [if_neg (by decide)] at haddt
  simp only [updateExisting]
  rw [haddt]
  rfl

/-- C8: when scraping succeeds but yields zero tracks, `handle`
terminates with the chart-scraping domain error naming the region, and
its remote-call trace is empty: in particular no create-playlist call is
issued. -/
theorem scrape_empty_no_create (cmd : CreatePlaylistCommand) (env : Env)
    (h : env.scrape = Except.ok []) :
    handle cmd env =
      (Except.error (HandlerError.chartScraping
        ("No tracks found for region: " ++ cmd.region)), []) := by
  unfold handle
  rw [h]
  rfl

/-- Witness for C8: a concrete run whose scrape returns the empty list
reports the domain error for its region and issues no remote call. -/
theorem scrape_empty_no_create_witness :
    handle ⟨"brazil", 50, "Top 50", false, "replace", ""⟩
        ⟨Except.ok [], none, ⟨"cid", "Top 50", "curl"⟩, fun _ => false⟩ =
      (Except.error (HandlerError.chartScraping
        ("No tracks found for region: " ++ "brazil")), []) :=
  scrape_empty_no_create ⟨"brazil", 50, "Top 50", false, "replace", ""⟩
    ⟨Except.ok [], none, ⟨"cid", "Top 50", "curl"⟩, fun _ => false⟩ rfl

/-- C10: for any update mode that survives validation (replace, append or
new), the fallback `sync` else-branch of the update-mode dispatch is
unreachable: mode `new` discards any found playlist, so the dispatch in
`_update_existing_playlist` only ever runs for `replace` or `append`. -/
theorem sync_branch_unreachable (mode : String) (existing : Option SPlaylist)
    (hmode : mode ∈ ["replace", "append", "new"])
    (hreach : (chosenExisting mode existing).isSome = true) :
    updateBranch mode ≠ UpdateBranch.sync := by
  rcases List.mem_cons.mp hmode with rfl | hmode
  · intro hcon
    rw [updateBranch, if_pos rfl] at hcon
    cases hcon
  rcases List.mem_cons.mp hmode with rfl | hmode
  · intro hcon
    rw [updateBranch, if_neg (by decide), if_pos rfl] at hcon
    cases hcon
  rcases List.mem_cons.mp hmode with rfl | hmode
  · cases existing with
    | none => rw [chosenExisting] at hreach; cases hreach
    | some p =>
      rw [chosenExisting, if_pos rfl] at hreach
      cases hreach
  · cases hmode

/-- Witness for C10: mode `replace` with a found playlist reaches the
dispatch and does not select the `sync` branch. -/
theorem sync_branch_unreachable_witness :
    updateBranch "replace" ≠ UpdateBranch.sync :=
  sync_branch_unreachable "replace" (some ⟨"pid", "Foo", "purl"⟩)
    (by decide) (by decide)

theorem runAddBatches_spec (pid : String) (fails : Nat → Bool) (i : Nat)
    (bs : List (List String)) :
    runAddBatches pid fails i bs =
      ((((bs.enumFrom i).filter (fun ib => !(fails ib.1))).map
          (fun ib => ib.2.length)).sum,
        ((bs.enumFrom i).filter (fun ib => fails ib.1)).map
          (fun ib => addBatchErrMsg ib.1),
        bs.map (RemoteCall.addItems pid)) := by
  induction bs generalizing i with
  | nil => rfl
  | cons b bs ih =>
    rw [runAddBatches, ih (i + 1)]
    by_cases hf : fails i
    · simp [List.enumFrom, hf]
    · simp [List.enumFrom, hf]

theorem runStrategyBatches_calls (fails : Nat → Bool) (i : Nat)
    (bs : List (List String)) : (runStrategyBatches fails i bs).2.1 = bs := by
  induction bs generalizing i with
  | nil => rfl
  | cons b bs ih =>
    rw [runStrategyBatches]
    by_cases hf : fails i
    · rw [if_pos hf]
      simp [ih (i + 1)]
    · rw [if_neg hf]
      simp [ih (i + 1)]

/-- Playlist the handler's add-tracks calls target: the found playlist
when the update path is taken, the freshly created one otherwise. -/
def targetPid (env : Env) (req : CreatePlaylistRequest) : String :=
  match chosenExisting req.update_mode env.existing with
  | some p => p.id
  | none => env.created.id

/-- C4: per-batch failure is tolerated, not escalated.  Every batch is
attempted whatever subset of batches fails (the issued calls are exactly
the 100-chunks, in order); the added count sums exactly the sizes of the
succeeded batches; one error message is collected per failed batch;
`tracks_failed` is the total minus the added count; the handler's
response carries exactly these counts; and once scraping and validation
pass, `handle` returns a success outcome. -/
theorem per_batch_failure_tolerated (pid : String) (ids : List String)
    (fails : Nat → Bool) :
    (addTracksHandler pid ids fails).calls =
      (chunksOf 100 (ids.map buildUri)).map (RemoteCall.addItems pid) ∧
    (addTracksHandler pid ids fails).added =
      ((((chunksOf 100 (ids.map buildUri)).enumFrom 0).filter
          (fun ib => !(fails ib.1))).map (fun ib => ib.2.length)).sum ∧
    (addTracksHandler pid ids fails).errors.length =
      (((chunksOf 100 (ids.map buildUri)).enumFrom 0).filter
        (fun ib => fails ib.1)).length ∧
    (addTracksHandler pid ids fails).failed =
      ids.length - (addTracksHandler pid ids fails).added ∧
    (∀ (env : Env) (req : CreatePlaylistRequest),
      (createOrUpdate env req).1.tracks_added =
        (addTracksHandler (targetPid env req) req.track_ids
          env.addFails).added ∧
      (createOrUpdate env req).1.tracks_failed =
        (addTracksHandler (targetPid env req) req.track_ids
          env.addFails).failed ∧
      (createOrUpdate env req).1.errors =
        (addTracksHandler (targetPid env req) req.track_ids
          env.addFails).errors) ∧
    (∀ (cmd : CreatePlaylistCommand) (env : Env) (tracks : List Track)
      (x : CreatePlaylistRequest),
      env.scrape = Except.ok tracks → tracks ≠ [] →
      validate (reqOf cmd tracks) = Except.ok x →
      (handle cmd env).1 = Except.ok (createOrUpdate env (reqOf cmd tracks)).1)
    := by
  have hbase : addTracksHandler pid ids fails =
      ⟨(runAddBatches pid fails 0 (chunksOf 100 (ids.map buildUri))).1,
        (ids.map buildUri).length -
          (runAddBatches pid fails 0 (chunksOf 100 (ids.map buildUri))).1,
        (runAddBatches pid fails 0 (chunksOf 100 (ids.map buildUri))).2.1,
        (runAddBatches pid fails 0 (chunksOf 100 (ids.map buildUri))).2.2⟩
      := by
    unfold addTracksHandler
    by_cases h : ids = []
    · rw [if_pos h]
      subst h
      rw [show (([] : List String).map buildUri) = [] from rfl, chunksOf_nil]
      rfl
    · rw [if_neg h]
  refine ⟨?_, ?_, ?_, ?_, ?_, ?_⟩
  · rw [hbase, runAddBatches_spec]
  · rw [hbase, runAddBatches_spec]
  · rw [hbase, runAddBatches_spec]
    simp
  · rw [hbase]
    simp
  · intro env req
    unfold createOrUpdate targetPid
    cases hc : chosenExisting req.update_mode env.existing with
    | some p =>
      unfold updateExisting
      cases hb : updateBranch req.update_mode <;> exact ⟨rfl, rfl, rfl⟩
    | none => exact ⟨rfl, rfl, rfl⟩
  · intro cmd env tracks x h1 h2 hval
    simp only [handle, h1]
    rw [if_neg h2]
    simp only [hval]

/-- Witness for C4: a run whose single add batch fails still returns a
success outcome; a failing batch yields added 0, failed 2 and one error
message. -/
theorem per_batch_failure_tolerated_witness :
    (addTracksHandler "p" ["A", "B"] (fun i => decide (i = 0))).added = 0 ∧
    (addTracksHandler "p" ["A", "B"] (fun i => decide (i = 0))).failed = 2 ∧
    (addTracksHandler "p" ["A", "B"]
      (fun i => decide (i = 0))).errors.length = 1 ∧
    (handle ⟨"brazil", 2, "Top", false, "new", ""⟩
        ⟨Except.ok [⟨"A", "", ""⟩, ⟨"B", "", ""⟩], none,
          ⟨"cid", "Top", "curl"⟩, fun i => decide (i = 0)⟩).1 =
      Except.ok (createOrUpdate
        ⟨Except.ok [⟨"A", "", ""⟩, ⟨"B", "", ""⟩], none,
          ⟨"cid", "Top", "curl"⟩, fun i => decide (i = 0)⟩
        (reqOf ⟨"brazil", 2, "Top", false, "new", ""⟩
          [⟨"A", "", ""⟩, ⟨"B", "", ""⟩])).1 := by
  have hsmall := addTracksHandler_small "p" ["A", "B"] (by decide)
    (by decide) (fun i => decide (i = 0))
  rw [if_pos (by decide)] at hsmall
  refine ⟨by rw [hsmall], by rw [hsmall]; rfl, by rw [hsmall]; rfl, ?_⟩
  exact (per_batch_failure_tolerated "p" ["A", "B"]
    (fun i => decide (i = 0))).2.2.2.2.2
    ⟨"brazil", 2, "Top", false, "new", ""⟩
    ⟨Except.ok [⟨"A", "", ""⟩, ⟨"B", "", ""⟩], none,
      ⟨"cid", "Top", "curl"⟩, fun i => decide (i = 0)⟩
    [⟨"A", "", ""⟩, ⟨"B", "", ""⟩]
    (reqOf ⟨"brazil", 2, "Top", false, "new", ""⟩
      [⟨"A", "", ""⟩, ⟨"B", "", ""⟩])
    rfl (by decide) rfl

/-- C3: every remote add-tracks or remove-tracks call issued by the
handler or by either strategy carries at most 100 URIs; batching is a
consecutive, order-preserving partition whose batch sizes are
`len / 100` full batches of 100 followed by one batch of `len % 100`
when that remainder is nonzero; and a 250-element list is sent in
exactly three calls of sizes 100, 100 and 50. -/
theorem batch_partitioning :
    (∀ (pid : String) (ids : List String) (fails : Nat → Bool)
      (b : List String),
      RemoteCall.addItems pid b ∈ (addTracksHandler pid ids fails).calls →
      b.length ≤ 100) ∧
    (∀ (p d : List String) (fails : Nat → Bool) (c : List String),
      c ∈ (replaceStrategyUpdate p d fails).removeCalls → c.length ≤ 100) ∧
    (∀ (p d : List String) (fails : Nat → Bool) (c : List String),
      c ∈ (replaceStrategyUpdate p d fails).addCalls → c.length ≤ 100) ∧
    (∀ (p d : List String) (fails : Nat → Bool) (c : List String),
      c ∈ (appendStrategyUpdate p d fails).addCalls → c.length ≤ 100) ∧
    (∀ (l : List String), (chunksOf 100 l).flatten = l ∧
      (chunksOf 100 l).map List.length =
        List.replicate (l.length / 100) 100 ++
          (if l.length % 100 = 0 then [] else [l.length % 100])) ∧
    ((chunksOf 100 ((List.range 250).map (fun k => toString k))).map
        List.length = [100, 100, 50] ∧
      (addTracksHandler "pid" ((List.range 250).map (fun k => toString k))
        (fun _ => false)).calls.length = 3) := by
  refine ⟨?_, ?_, ?_, ?_, ?_, ?_, ?_⟩
  · intro pid ids fails b hmem
    have hcalls : (addTracksHandler pid ids fails).calls =
        (chunksOf 100 (ids.map buildUri)).map (RemoteCall.addItems pid) := by
      unfold addTracksHandler
      by_cases h : ids = []
      · rw [if_pos h]
        subst h
        rw [show (([] : List String).map buildUri) = [] from rfl, chunksOf_nil]
        rfl
      · rw [if_neg h]
        simp only []
        rw [runAddBatches_spec]
    rw [hcalls] at hmem
    obtain ⟨c, hc, hceq⟩ := List.mem_map.mp hmem
    have hb : b = c := by
      injection hceq.symm
    rw [hb]
    exact (mem_chunksOf_length_le 100 (by decide) _ c hc).1
  · intro p d fails c hmem
    unfold replaceStrategyUpdate at hmem
    simp only [] at hmem
    exact (mem_chunksOf_length_le 100 (by decide) p c hmem).1
  · intro p d fails c hmem
    unfold replaceStrategyUpdate at hmem
    simp only [] at hmem
    rw [runStrategyBatches_calls] at hmem
    exact (mem_chunksOf_length_le 100 (by decide) d c hmem).1
  · intro p d fails c hmem
    unfold appendStrategyUpdate at hmem
    by_cases h : d.filter (fun u => u ∉ p) = []
    · rw [if_pos h] at hmem
      cases hmem
    · rw [if_neg h] at hmem
      simp only [] at hmem
      rw [runStrategyBatches_calls] at hmem
      exact (mem_chunksOf_length_le 100 (by decide) _ c hmem).1
  · intro l
    exact ⟨flatten_chunksOf 100 l,
      by rw [map_length_chunksOf 100 (by decide) l]⟩
  · have hlen : ((List.range 250).map (fun k => toString k)).length = 250 :=
      by simp
    rw [map_length_chunksOf 100 (by decide), hlen]
    decide
  · have hne : ((List.range 250).map (fun k => toString k)) ≠ [] := by
      intro h
      have := congrArg List.length h
      simp at this
    have hulen : (((List.range 250).map (fun k => toString k)).map
        buildUri).length = 250 := by simp
    unfold addTracksHandler
    rw [if_neg hne]
    simp only []
    rw [runAddBatches_spec]
    simp only [List.length_map]
    have h3 : ((chunksOf 100 (((List.range 250).map (fun k => toString k)).map
        buildUri)).map List.length).length = 3 := by
      rw [map_length_chunksOf 100 (by decide), hulen]
      decide
    simpa using h3

/-- Witness for C3: the single batch issued for two track ids carries two
URIs, within the 100 limit. -/
theorem batch_partitioning_witness :
    (["spotify:track:A", "spotify:track:B"] : List String).length ≤ 100 := by
  have hsmall := addTracksHandler_small "p" ["A", "B"] (by decide)
    (by decide) (fun _ => false)
  rw [if_neg (by decide)] at hsmall
  refine batch_partitioning.1 "p" ["A", "B"] (fun _ => false)
    ["spotify:track:A", "spotify:track:B"] ?_
  rw [hsmall]
  simp only [List.map]
  exact List.mem_singleton.mpr (by rfl)

theorem cacheGet_cacheSet_self (m : CacheMap) (name : String)
    (p : SPlaylist) : cacheGet (cacheSet m name p) name = some p := by
  unfold cacheGet cacheSet
  rw [List.lookup]
  simp

/-- C6: the locator caches successful lookups.  A cache hit returns the
cached playlist with zero remote calls and an unchanged cache; a miss
whose paging finds a match stores it under the lookup's key before
returning; hence whenever the first of two consecutive same-name lookups
succeeds, the second performs zero remote calls, and the two lookups
issue at most one remote list-playlists operation in total. -/
theorem locator_caches_successful_lookups :
    (∀ (cache : CacheMap) (c : SpotifyClient) (name : String)
      (p : SPlaylist), cacheGet cache name = some p →
      findByName cache c name = (some p, cache, 0)) ∧
    (∀ (cache : CacheMap) (c : SpotifyClient) (name : String)
      (p : SPlaylist), cacheGet cache name = none →
      (findByName cache c name).1 = some p →
      cacheGet (findByName cache c name).2.1 name = some p) ∧
    (∀ (cache : CacheMap) (c : SpotifyClient) (name : String)
      (p : SPlaylist), (findByName cache c name).1 = some p →
      findByName (findByName cache c name).2.1 c name =
        (some p, (findByName cache c name).2.1, 0)) ∧
    (∀ (cache : CacheMap) (c : SpotifyClient) (name : String)
      (p : SPlaylist), (findByName cache c name).1 = some p →
      listSessions (findByName cache c name).2.2 +
        listSessions
          (findByName (findByName cache c name).2.1 c name).2.2 ≤ 1) := by
  have hhit : ∀ (cache : CacheMap) (c : SpotifyClient) (name : String)
      (p : SPlaylist), cacheGet cache name = some p →
      findByName cache c name = (some p, cache, 0) := by
    intro cache c name p h
    simp only [findByName, h]
  have hstore : ∀ (cache : CacheMap) (c : SpotifyClient) (name : String)
      (p : SPlaylist), cacheGet cache name = none →
      (findByName cache c name).1 = some p →
      cacheGet (findByName cache c name).2.1 name = some p := by
    intro cache c name p h hres
    simp only [findByName, h] at hres ⊢
    cases hloop : (findLoop (pyNorm name) c 0 0).1 with
    | error e =>
      rw [hloop] at hres
      exact Option.noConfusion
        (show (none : Option SPlaylist) = some p from hres)
    | ok o =>
      cases o with
      | none =>
        rw [hloop] at hres
        exact Option.noConfusion
          (show (none : Option SPlaylist) = some p from hres)
      | some q =>
        rw [hloop] at hres
        have hres2 : some q = some p := hres
        cases hres2
        exact cacheGet_cacheSet_self cache name p
  have hsecond : ∀ (cache : CacheMap) (c : SpotifyClient) (name : String)
      (p : SPlaylist), (findByName cache c name).1 = some p →
      findByName (findByName cache c name).2.1 c name =
        (some p, (findByName cache c name).2.1, 0) := by
    intro cache c name p hres
    cases hget : cacheGet cache name with
    | some q =>
      have h1 := hhit cache c name q hget
      rw [h1] at hres
      have hqp : q = p := by
        have hres2 : some q = some p := hres
        injection hres2
      subst hqp
      rw [h1]
      exact h1
    | none =>
      have h2 := hstore cache c name p hget hres
      exact hhit _ c name p h2
  refine ⟨hhit, hstore, hsecond, ?_⟩
  intro cache c name p hres
  rw [hsecond cache c name p hres]
  have h2 : listSessions
      ((some p, (findByName cache c name).2.1, 0) :
        Option SPlaylist × CacheMap × Nat).2.2 = 0 := rfl
  rw [h2]
  unfold listSessions
  split_ifs <;> omega

/-- Witness for C6: with an empty cache and one remote playlist named
Foo, the first lookup pages once and stores the match; the second lookup
is a pure cache hit with zero remote calls, so the two lookups together
perform one listing. -/
theorem locator_caches_successful_lookups_witness :
    findByName (cacheSet [] "Foo" ⟨"id1", "Foo", "u"⟩)
        ⟨[⟨"id1", "Foo", "u"⟩], none⟩ "Foo" =
      (some ⟨"id1", "Foo", "u"⟩, cacheSet [] "Foo" ⟨"id1", "Foo", "u"⟩, 0) ∧
    cacheGet (cacheSet [] "Foo" ⟨"id1", "Foo", "u"⟩) "Foo" =
      some ⟨"id1", "Foo", "u"⟩ ∧
    listSessions 1 + listSessions 0 ≤ 1 := by
  have hloop : findLoop (pyNorm "Foo") ⟨[⟨"id1", "Foo", "u"⟩], none⟩ 0 0 =
      (Except.ok (some ⟨"id1", "Foo", "u"⟩), 1) := by
    rw [findLoop]
    rfl
  have hget : cacheGet ([] : CacheMap) "Foo" = none := rfl
  have hfind : findByName [] ⟨[⟨"id1", "Foo", "u"⟩], none⟩ "Foo" =
      (some ⟨"id1", "Foo", "u"⟩, cacheSet [] "Foo" ⟨"id1", "Foo", "u"⟩, 1)
      := by
    simp only [findByName, hget, hloop]
  refine ⟨?_, ?_, ?_⟩
  · have h := (locator_caches_successful_lookups).2.2.1 []
      ⟨[⟨"id1", "Foo", "u"⟩], none⟩ "Foo" ⟨"id1", "Foo", "u"⟩
      (by rw [hfind])
    rw [hfind] at h
    exact h
  · have h := (locator_caches_successful_lookups).2.1 []
      ⟨[⟨"id1", "Foo", "u"⟩], none⟩ "Foo" ⟨"id1", "Foo", "u"⟩ hget
      (by rw [hfind])
    rw [hfind] at h
    exact h
  · decide

/-- C7 (amended): a transport error raised by the remote client during
`find_by_name` paging is caught inside the method, which then returns
`None` — the very value that signals not-found — so the caller cannot
distinguish a transport failure from an absent playlist. -/
theorem find_transport_error_returns_not_found (cache : CacheMap)
    (name : String) (ps : List SPlaylist)
    (h : cacheGet cache name = none) :
    findByName cache ⟨ps, some 0⟩ name = (none, cache, 1) := by
  have hloop : findLoop (pyNorm name) ⟨ps, some 0⟩ 0 0 =
      (Except.error (), 1) := by
    rw [findLoop]
    rw [if_pos rfl]
  simp only [findByName, h, hloop]

/-- C7 counterexample: a lookup whose very first remote call raises ends
with result `none`, identical to the result of an honest not-found
lookup, instead of a distinguishable operation failure. -/
theorem find_transport_error_counterexample :
    (findByName [] ⟨[⟨"id1", "Foo", "u"⟩], some 0⟩ "Foo").1 = none ∧
    (findByName [] ⟨[], none⟩ "Missing").1 = none := by
  constructor
  · have hloop : findLoop (pyNorm "Foo") ⟨[⟨"id1", "Foo", "u"⟩], some 0⟩ 0 0
        = (Except.error (), 1) := by
      rw [findLoop]
      rfl
    have hget : cacheGet ([] : CacheMap) "Foo" = none := rfl
    simp only [findByName, hget, hloop]
  · have hloop : findLoop (pyNorm "Missing") ⟨[], none⟩ 0 0 =
        (Except.ok none, 1) := by
      rw [findLoop]
      rfl
    have hget : cacheGet ([] : CacheMap) "Missing" = none := rfl
    simp only [findByName, hget, hloop]

/-- Witness for C7 amended: a concrete erroring client with a cold cache
produces the not-found answer and leaves the cache untouched. -/
theorem find_transport_error_returns_not_found_witness :
    findByName [] ⟨[⟨"id1", "Foo", "u"⟩], some 0⟩ "Foo" = (none, [], 1) :=
  find_transport_error_returns_not_found [] "Foo" [⟨"id1", "Foo", "u"⟩] rfl

/-- C9: every save of the playlist cache file rewrites the whole file and
stamps every entry — touched or not — with the current time; hence a
file written at time `now` and loaded before `now + ttl` yields back all
entries, so no entry expires while the cache keeps being written at
least once per TTL period. -/
theorem cache_file_stamps_all_entries (m : CacheMap) (name : String)
    (p : SPlaylist) (now ttl tLoad : Nat) :
    (∀ e ∈ (setAndSave m name p now).2, e.2.2 = now) ∧
    (∀ (file : CacheFile), (cacheGet m name).isSome = true →
      ∀ e ∈ (removeAndSave m name now file).2, e.2.2 = now) ∧
    (tLoad - now < ttl →
      loadFromFile (setAndSave m name p now).2 tLoad ttl =
        cacheSet m name p) := by
  refine ⟨?_, ?_, ?_⟩
  · intro e he
    unfold setAndSave saveToFile at he
    simp only [] at he
    obtain ⟨a, ha, rfl⟩ := List.mem_map.mp he
    rfl
  · intro file hsome e he
    unfold removeAndSave at he
    rw [if_pos hsome] at he
    unfold saveToFile at he
    simp only [] at he
    obtain ⟨a, ha, rfl⟩ := List.mem_map.mp he
    rfl
  · intro httl
    unfold setAndSave loadFromFile saveToFile
    rw [List.filter_map, List.map_map]
    have hall : ∀ e ∈ cacheSet m name p,
        ((fun x : String × SPlaylist × Nat => decide (tLoad - x.2.2 < ttl))
          ∘ (fun e : String × SPlaylist => (e.1, e.2, now))) e = true := by
      intro e he
      simp [Function.comp, httl]
    rw [List.filter_eq_self.mpr hall]
    have hid : ∀ e ∈ cacheSet m name p,
        ((fun e : String × SPlaylist × Nat => (e.1, e.2.1))
          ∘ (fun e : String × SPlaylist => (e.1, e.2, now))) e = id e :=
      fun e _ => rfl
    rw [List.map_congr_left hid, List.map_id]

/-- Witness for C9: saving at time 5 and loading at time 7 with a TTL of
10 returns the full updated map, untouched entry included. -/
theorem cache_file_stamps_all_entries_witness :
    loadFromFile (setAndSave [("a", ⟨"idA", "A", "uA"⟩)] "b"
        ⟨"idB", "B", "uB"⟩ 5).2 7 10 =
      cacheSet [("a", ⟨"idA", "A", "uA"⟩)] "b" ⟨"idB", "B", "uB"⟩ :=
  (cache_file_stamps_all_entries [("a", ⟨"idA", "A", "uA"⟩)] "b"
    ⟨"idB", "B", "uB"⟩ 5 10 7).2.2 (by decide)

end Spotichart
